import Mathlib

/-!
Verification of the two ingestion connectors (csv_enricher.py and ldap.py)
against their specification.  Python code is shallowly embedded: pure logic
becomes Lean functions, catalog / directory I/O becomes explicit `Option`
parameters standing for the fetched answers, raised exceptions become
`Except`, and Python object truthiness of aspect objects (`if not current`)
is rendered as `Option` matching (objects are truthy, `None` is falsy).
Byte strings are rendered as `String` (decoding is the identity in the model).
-/

set_option linter.unusedVariables false

namespace CsvEnricher

/-- `GlossaryTermAssociationClass(urn)`. -/
structure GlossaryTermAssociation where
  urn : String
  deriving DecidableEq, Repr

/-- `TagAssociationClass(tag)`. -/
structure TagAssociation where
  tag : String
  deriving DecidableEq, Repr

/-- `OwnerClass(owner, type=...)`; the ownership type is carried verbatim. -/
structure Owner where
  owner : String
  ownerType : String
  deriving DecidableEq, Repr

/-- `GlossaryTermsClass(terms, auditStamp)`; the audit stamp
(`get_audit_stamp()`: wall-clock time plus fixed actor) is a `Nat` supplied
by the caller since real time is outside the model. -/
structure GlossaryTerms where
  terms : List GlossaryTermAssociation
  auditStamp : Nat
  deriving DecidableEq, Repr

/-- `GlobalTagsClass(tags)`. -/
structure GlobalTags where
  tags : List TagAssociation
  deriving DecidableEq, Repr

/-- `OwnershipClass(owners, lastModified)`. -/
structure Ownership where
  owners : List Owner
  lastModified : Nat
  deriving DecidableEq, Repr

/-- `CSVEnricherSource.get_resource_glossary_terms_work_unit`.
`graph` renders `self.ctx.graph` together with the answer of
`graph.get_glossary_terms(entity_urn)`: outer `none` means no graph
connection, `some fetched` means the graph is present and the fetch for this
entity returns `fetched`.  The returned `Option GlossaryTerms` is the aspect
carried by the emitted work unit, `none` when no work unit is emitted. -/
def get_resource_glossary_terms_work_unit (should_overwrite : Bool)
    (graph : Option (Option GlossaryTerms)) (now : Nat)
    (term_associations : List GlossaryTermAssociation) :
    Option GlossaryTerms :=
  if term_associations.length ≤ 0 then none
  else
    match (if should_overwrite then some none else graph) with
    | none => none
    | some current_terms =>
      match current_terms with
      | none => some { terms := term_associations, auditStamp := now }
      | some cur =>
        let current_term_urns : List String :=
          cur.terms.map GlossaryTermAssociation.urn
        let term_associations_filtered : List GlossaryTermAssociation :=
          term_associations.filter
            (fun association => !(current_term_urns.contains association.urn))
        if term_associations_filtered.length ≤ 0 then none
        else some { cur with terms := cur.terms ++ term_associations_filtered }

/-- `CSVEnricherSource.get_resource_tags_work_unit`; same I/O rendering as
for glossary terms, `graph.get_tags` supplying the inner answer. -/
def get_resource_tags_work_unit (should_overwrite : Bool)
    (graph : Option (Option GlobalTags))
    (tag_associations : List TagAssociation) :
    Option GlobalTags :=
  if tag_associations.length ≤ 0 then none
  else
    match (if should_overwrite then some none else graph) with
    | none => none
    | some current_tags =>
      match current_tags with
      | none => some { tags := tag_associations }
      | some cur =>
        let current_tag_urns : List String := cur.tags.map TagAssociation.tag
        let tag_associations_filtered : List TagAssociation :=
          tag_associations.filter
            (fun association => !(current_tag_urns.contains association.tag))
        if tag_associations_filtered.length ≤ 0 then none
        else some { cur with tags := cur.tags ++ tag_associations_filtered }

/-- `CSVEnricherSource.get_resource_owners_work_unit`; same I/O rendering,
`graph.get_ownership` supplying the inner answer. -/
def get_resource_owners_work_unit (should_overwrite : Bool)
    (graph : Option (Option Ownership)) (now : Nat)
    (owners : List Owner) :
    Option Ownership :=
  if owners.length ≤ 0 then none
  else
    match (if should_overwrite then some none else graph) with
    | none => none
    | some current_ownership =>
      match current_ownership with
      | none => some { owners := owners, lastModified := now }
      | some cur =>
        let current_owner_urns : List String := cur.owners.map Owner.owner
        let owners_filtered : List Owner :=
          owners.filter (fun owner => !(current_owner_urns.contains owner.owner))
        if owners_filtered.length ≤ 0 then none
        else some { cur with owners := cur.owners ++ owners_filtered }

/-- `EditableSchemaFieldInfoClass`: field path plus optional per-field terms
and tags aspects (the only parts csv_enricher.py touches). -/
structure EditableSchemaFieldInfo where
  fieldPath : String
  glossaryTerms : Option GlossaryTerms
  globalTags : Option GlobalTags
  deriving DecidableEq, Repr

/-- `EditableSchemaMetadataClass(editableSchemaFieldInfo, created)`. -/
structure EditableSchemaMetadata where
  editableSchemaFieldInfo : List EditableSchemaFieldInfo
  created : Nat
  deriving DecidableEq, Repr

/-- `SubResourceRow` dataclass. -/
structure SubResourceRow where
  entity_urn : String
  field_path : String
  term_associations : List GlossaryTermAssociation
  tag_associations : List TagAssociation
  deriving DecidableEq, Repr

/-- The terms branch of the field-match body of
`CSVEnricherSource.process_sub_resource_row` (only invoked when the row has
term associations): if the entry already has terms and overwrite mode is
off, append the associations whose urn is unseen, flagging dirty iff any
remain; otherwise replace the entry's terms aspect with `terms_aspect` and
flag dirty.  Returns the updated entry and the dirty contribution. -/
def mergeTermsIntoFieldInfo (should_overwrite : Bool)
    (terms_aspect : Option GlossaryTerms)
    (term_associations : List GlossaryTermAssociation)
    (fi : EditableSchemaFieldInfo) : EditableSchemaFieldInfo × Bool :=
  match fi.glossaryTerms, should_overwrite with
  | some gt, false =>
    let current_term_urns : List String :=
      gt.terms.map GlossaryTermAssociation.urn
    let term_associations_filtered : List GlossaryTermAssociation :=
      term_associations.filter
        (fun association => !(current_term_urns.contains association.urn))
    if term_associations_filtered.length > 0 then
      let gt2 : GlossaryTerms :=
        { gt with terms := gt.terms ++ term_associations_filtered }
      ({ fi with glossaryTerms := some gt2 }, true)
    else (fi, false)
  | _, _ => ({ fi with glossaryTerms := terms_aspect }, true)

/-- The tags branch of the field-match body of `process_sub_resource_row`
(only invoked when the row has tag associations); same shape as the terms
branch. -/
def mergeTagsIntoFieldInfo (should_overwrite : Bool)
    (tags_aspect : Option GlobalTags)
    (tag_associations : List TagAssociation)
    (fi : EditableSchemaFieldInfo) : EditableSchemaFieldInfo × Bool :=
  match fi.globalTags, should_overwrite with
  | some gt, false =>
    let current_tag_urns : List String := gt.tags.map TagAssociation.tag
    let tag_associations_filtered : List TagAssociation :=
      tag_associations.filter
        (fun association => !(current_tag_urns.contains association.tag))
    if tag_associations_filtered.length > 0 then
      let gt2 : GlobalTags :=
        { gt with tags := gt.tags ++ tag_associations_filtered }
      ({ fi with globalTags := some gt2 }, true)
    else (fi, false)
  | _, _ => ({ fi with globalTags := tags_aspect }, true)

/-- The whole field-match body of `process_sub_resource_row` for one
matching entry: terms branch then tags branch, each guarded by whether the
row carries that kind of association; the dirty contributions are joined. -/
def mergeFieldInfo (should_overwrite : Bool) (now : Nat)
    (row : SubResourceRow) (fi : EditableSchemaFieldInfo) :
    EditableSchemaFieldInfo × Bool :=
  let has_terms : Bool := row.term_associations.length > 0
  let has_tags : Bool := row.tag_associations.length > 0
  let terms_aspect : Option GlossaryTerms :=
    if has_terms then some { terms := row.term_associations, auditStamp := now }
    else none
  let tags_aspect : Option GlobalTags :=
    if has_tags then some { tags := row.tag_associations } else none
  let step1 : EditableSchemaFieldInfo × Bool :=
    if has_terms then
      mergeTermsIntoFieldInfo should_overwrite terms_aspect
        row.term_associations fi
    else (fi, false)
  let step2 : EditableSchemaFieldInfo × Bool :=
    if has_tags then
      mergeTagsIntoFieldInfo should_overwrite tags_aspect
        row.tag_associations step1.1
    else (step1.1, false)
  (step2.1, step1.2 || step2.2)

/-- The `for field_info in ...editableSchemaFieldInfo` loop of
`process_sub_resource_row`: scans every entry (no short-circuit), applies
`mergeF` in place on each entry satisfying `matchP`, threading the
`field_match` and `needs_write` flags.  Returns the rewritten entry list and
the two final flags. -/
def subResourceLoop (matchP : EditableSchemaFieldInfo → Bool)
    (mergeF : EditableSchemaFieldInfo → EditableSchemaFieldInfo × Bool) :
    List EditableSchemaFieldInfo → Bool → Bool →
      List EditableSchemaFieldInfo × Bool × Bool
  | [], field_match, needs_write => ([], field_match, needs_write)
  | fi :: rest, field_match, needs_write =>
    if matchP fi then
      let m := mergeF fi
      let r := subResourceLoop matchP mergeF rest true (needs_write || m.2)
      (m.1 :: r.1, r.2)
    else
      let r := subResourceLoop matchP mergeF rest field_match needs_write
      (fi :: r.1, r.2)

/-- The brand-new entry `field_info_to_set` built by
`process_sub_resource_row` from the row's associations. -/
def fieldInfoToSet (now : Nat) (row : SubResourceRow) :
    EditableSchemaFieldInfo :=
  { fieldPath := row.field_path
    glossaryTerms :=
      if row.term_associations.length > 0 then
        some { terms := row.term_associations, auditStamp := now }
      else none
    globalTags :=
      if row.tag_associations.length > 0 then
        some { tags := row.tag_associations }
      else none }

/-- `CSVEnricherSource.process_sub_resource_row`.  `normalize` stands for
`DatasetUrn._get_simple_field_path_from_v2_field_path` (library code outside
this repository; the spec only says it strips versioned-schema wrapping to
the simple column name), so the function is parametric in it. -/
def process_sub_resource_row (normalize : String → String)
    (should_overwrite : Bool) (now : Nat) (row : SubResourceRow)
    (cur : EditableSchemaMetadata) (needs_write : Bool) :
    EditableSchemaMetadata × Bool :=
  let has_terms : Bool := row.term_associations.length > 0
  let has_tags : Bool := row.tag_associations.length > 0
  if !has_tags && !has_terms then (cur, needs_write)
  else
    let r := subResourceLoop
      (fun fi => normalize fi.fieldPath == row.field_path)
      (mergeFieldInfo should_overwrite now row)
      cur.editableSchemaFieldInfo false needs_write
    if r.2.1 then ({ cur with editableSchemaFieldInfo := r.1 }, r.2.2)
    else
      ({ cur with editableSchemaFieldInfo := r.1 ++ [fieldInfoToSet now row] },
        true)

/-- One iteration of `CSVEnricherSource.get_sub_resource_work_units` for a
single entity of the accumulated map: resolve the starting state (fresh and
dirty in overwrite mode or when the graph holds no prior aspect; fetched and
clean otherwise; skipped outright in append mode without a graph), fold the
entity's rows through `process_sub_resource_row`, and emit the state iff the
dirty flag ended set.  `graph` is `none` when no graph connection exists,
otherwise the fetch function for `get_aspect_v2`. -/
def flush_entity (normalize : String → String) (should_overwrite : Bool)
    (graph : Option (String → Option EditableSchemaMetadata)) (now : Nat)
    (entity_urn : String) (rows : List SubResourceRow) :
    Option EditableSchemaMetadata :=
  match (if should_overwrite then some none else graph.map (fun g => g entity_urn)) with
  | none => none
  | some fetched =>
    let start : EditableSchemaMetadata × Bool :=
      match fetched with
      | some esm => (esm, false)
      | none => ({ editableSchemaFieldInfo := [], created := now }, true)
    let r := rows.foldl
      (fun acc row =>
        process_sub_resource_row normalize should_overwrite now row acc.1 acc.2)
      start
    if r.2 then some r.1 else none

/-- `CSVEnricherSource.get_sub_resource_work_units`: the flush pass over the
accumulated `editable_schema_metadata_map`, rendered as an association list
in insertion order with the dict's unique keys.  Each emitted pair is one
editableSchemaMetadata work unit (entity urn, aspect). -/
def get_sub_resource_work_units (normalize : String → String)
    (should_overwrite : Bool)
    (graph : Option (String → Option EditableSchemaMetadata)) (now : Nat)
    (emap : List (String × List SubResourceRow)) :
    List (String × EditableSchemaMetadata) :=
  emap.filterMap
    (fun p =>
      (flush_entity normalize should_overwrite graph now p.1 p.2).map
        (fun esm => (p.1, esm)))

end CsvEnricher

namespace LdapSource

/-- Attribute map of a directory entry: Python `Dict[str, List[bytes]]`,
rendered as an association list with unique keys; byte values are `String`s
(decode is the identity in the model). -/
abbrev Attrs := List (String × List String)

/-- Python dict lookup returning the value when the key is present. -/
def lookupAttr (attrs : Attrs) (k : String) : Option (List String) :=
  (attrs.find? (fun p => p.1 == k)).map Prod.snd

/-- `ldap.controls.SimplePagedResultsControl`: its control type OID and its
cookie (Python bytes, rendered as `String`; the empty string is the falsy
empty cookie). -/
structure SimplePagedResultsControl where
  controlType : String
  cookie : String
  deriving DecidableEq, Repr

/-- The RFC 2696 paged-results control type OID. -/
def pagedResultsControlType : String := "1.2.840.113556.1.4.319"

/-- `get_pctrls`: filter the returned server controls down to the
paged-results controls. -/
def get_pctrls (serverctrls : List SimplePagedResultsControl) :
    List SimplePagedResultsControl :=
  serverctrls.filter (fun c => c.controlType == pagedResultsControlType)

/-- `set_cookie`: copy the first returned paged control's cookie into the
outgoing control and report its truthiness (`bool(cookie)`, i.e. cookie
non-empty).  Only called with non-empty `pctrls` (the caller checks); the
`[]` case mirrors Python's `pctrls[0]` never being reached. -/
def set_cookie (lc_object : SimplePagedResultsControl)
    (pctrls : List SimplePagedResultsControl) :
    SimplePagedResultsControl × Bool :=
  match pctrls with
  | c :: _ => ({ lc_object with cookie := c.cookie }, c.cookie != "")
  | [] => (lc_object, false)

/-- One directory entry of a page: `(dn, attrs)` where `dn` may be `None`. -/
structure LdapEntry where
  dn : Option String
  attrs : Attrs
  deriving DecidableEq, Repr

/-- One successful server response to `search_ext`/`result3`: the entries
and the returned server controls. -/
structure PageResponse where
  rdata : List LdapEntry
  serverctrls : List SimplePagedResultsControl
  deriving DecidableEq, Repr

/-- Outcome of the `while cookie` loop of `LDAPSource.get_workunits`,
tracking the number of `search_ext` calls issued: `done` when the server's
returned cookie was empty, `ctrlFailure` when a response carried no
paged-results control (reported failure, break), `exhausted` when the
scripted response list ran out while the loop still wanted a page. -/
inductive PagingOutcome where
  | done (calls : Nat)
  | ctrlFailure (calls : Nat)
  | exhausted (calls : Nat)
  deriving DecidableEq, Repr

/-- Bump the call count of an outcome by one (the call that consumed the
head response). -/
def PagingOutcome.succCalls : PagingOutcome → PagingOutcome
  | .done n => .done (n + 1)
  | .ctrlFailure n => .ctrlFailure (n + 1)
  | .exhausted n => .exhausted (n + 1)

/-- Number of search calls recorded in an outcome. -/
def PagingOutcome.calls : PagingOutcome → Nat
  | .done n => n
  | .ctrlFailure n => n
  | .exhausted n => n

/-- The paging loop of `LDAPSource.get_workunits`, driven by the scripted
list of successful server responses (one response consumed per
`search_ext`/`result3` call): process the page, extract the paged controls,
break with a failure report when there are none, otherwise push the
returned cookie into the outgoing control `lc` and continue iff it is
non-empty.  Entry dispatch is modelled separately (`process_ldap_entry`);
this function captures the cursor state machine. -/
def get_workunits_paging (lc : SimplePagedResultsControl) :
    List PageResponse → PagingOutcome
  | [] => .exhausted 0
  | r :: rest =>
    match get_pctrls r.serverctrls with
    | [] => .ctrlFailure 1
    | c :: cs =>
      let s := set_cookie lc (c :: cs)
      if s.2 then (get_workunits_paging s.1 rest).succCalls
      else .done 1

/-- Report-visible effects of processing one entry (or of one handler):
produced work unit ids, warning messages, and dns appended to the report's
`dropped_dns` list. -/
structure EntryEffects where
  workunits : List String
  warnings : List String
  dropped : List String
  deriving DecidableEq, Repr

/-- The warning text of the empty-attrs skip in `get_workunits`. -/
def emptyAttrsWarning (dn : String) : String :=
  "skipping " ++ dn ++
    " because attrs is empty; check your permissions if this is unexpected"

/-- The `for dn, attrs in rdata` body of `LDAPSource.get_workunits` for one
entry: skip `None` dns; warn and skip entries with an empty attribute map;
otherwise dispatch on the `objectClass` values to the user handler, the
group handler, or record the dn as dropped.  The handlers (`handle_user`,
`handle_group`, whose internals do directory I/O) are parameters; a missing
`objectClass` key is Python's uncaught `KeyError`, rendered as `.error`. -/
def process_ldap_entry (handleUser handleGroup : String → Attrs → EntryEffects)
    (dn : Option String) (attrs : Attrs) : Except String EntryEffects :=
  match dn with
  | none => .ok { workunits := [], warnings := [], dropped := [] }
  | some d =>
    if attrs.isEmpty then
      .ok { workunits := [], warnings := [emptyAttrsWarning d], dropped := [] }
    else
      match lookupAttr attrs "objectClass" with
      | none => .error "KeyError: objectClass"
      | some oc =>
        if oc.contains "inetOrgPerson" || oc.contains "posixAccount" ||
            oc.contains "person" then
          .ok (handleUser d attrs)
        else if oc.contains "posixGroup" || oc.contains "organizationalUnit" ||
            oc.contains "group" then
          .ok (handleGroup d attrs)
        else .ok { workunits := [], warnings := [], dropped := [d] }

/-- Python `s.lstrip(chars)`: drop the longest run of leading characters
drawn from the character set `chars`. -/
def pyLstrip (s : String) (chars : List Char) : String :=
  String.mk (s.data.dropWhile (fun c => chars.contains c))

/-- Python `s.split(sep)[0]` for a one-character separator: the longest
separator-free leading segment. -/
def pySplitFirst (s : String) (sep : Char) : String :=
  String.mk (s.data.takeWhile (fun c => c != sep))

/-- `strip_ldap_info`: decode (identity in the model), split on comma, take
the first component and `lstrip` it with the character set of `"uid="`. -/
def strip_ldap_info (input_clean : String) : String :=
  pyLstrip (pySplitFirst input_clean ',') ['u', 'i', 'd', '=']

/-- `parse_from_attrs`: map every raw value of `filter_key` through
`strip_ldap_info` and wrap it as a corpuser urn. -/
def parse_from_attrs (attrs : Attrs) (filter_key : String) : List String :=
  match lookupAttr attrs filter_key with
  | some vs => vs.map (fun ldap_user => "urn:li:corpuser:" ++ strip_ldap_info ldap_user)
  | none => []

/-- The user-side slice of `LDAPSourceConfig` needed by
`guess_person_ldap` and `build_corp_user_mce`: the
`drop_missing_first_last_name` flag and the effective `user_attrs_map`
(recipe overrides already layered over the module defaults by the
constructor), one field per dict key. -/
structure UserConfig where
  drop_missing_first_last_name : Bool
  urnAttr : String
  fullNameAttr : String
  lastNameAttr : String
  firstNameAttr : String
  displayNameAttr : String
  managerUrnAttr : String
  emailAttr : String
  departmentIdAttr : String
  titleAttr : String
  departmentNameAttr : String
  countryCodeAttr : String
  deriving DecidableEq, Repr

/-- The module-level `user_attrs_map` defaults of ldap.py, with the default
`drop_missing_first_last_name = True`. -/
def defaultUserConfig : UserConfig :=
  { drop_missing_first_last_name := true
    urnAttr := "sAMAccountName"
    fullNameAttr := "cn"
    lastNameAttr := "sn"
    firstNameAttr := "givenName"
    displayNameAttr := "displayName"
    managerUrnAttr := "manager"
    emailAttr := "mail"
    departmentIdAttr := "departmentNumber"
    titleAttr := "title"
    departmentNameAttr := "departmentNumber"
    countryCodeAttr := "countryCode" }

/-- Python `values[0].decode()` on an attribute value list: `IndexError`
when the list is empty. -/
def getItem0 (vs : List String) : Except String String :=
  match vs with
  | v :: _ => .ok v
  | [] => .error "IndexError: list index out of range"

/-- Python `attrs[key]`: `KeyError` when the key is absent. -/
def dictGet (attrs : Attrs) (k : String) : Except String (List String) :=
  match lookupAttr attrs k with
  | some vs => .ok vs
  | none => .error ("KeyError: " ++ k)

/-- `guess_person_ldap`: the configured urn attribute, with the documented
legacy fallbacks `sAMAccountName` then `uid` (each fallback also emits a
warning, not modelled here as it does not affect the value), and `None`
when all are absent. -/
def guess_person_ldap (config : UserConfig) (attrs : Attrs) :
    Except String (Option String) :=
  match lookupAttr attrs config.urnAttr with
  | some vs => (getItem0 vs).map some
  | none =>
    match lookupAttr attrs "sAMAccountName" with
    | some vs => (getItem0 vs).map some
    | none =>
      match lookupAttr attrs "uid" with
      | some vs => (getItem0 vs).map some
      | none => .ok none

/-- Python `int(s)`: parse the decoded value as an integer, `ValueError`
otherwise (leading/trailing blanks tolerated as in Python). -/
def pyInt (s : String) : Except String Int :=
  match s.trim.toInt? with
  | some n => .ok n
  | none => .error ("ValueError: invalid literal for int: " ++ s)

/-- Python f-string rendering of an `Optional[str]`. -/
def pyStrOpt : Option String → String
  | some s => s
  | none => "None"

/-- `CorpUserInfoClass` as populated by `build_corp_user_mce`. -/
structure CorpUserInfo where
  active : Bool
  email : Option String
  fullName : String
  firstName : String
  lastName : String
  departmentId : Option Int
  departmentName : Option String
  displayName : Option String
  countryCode : Option String
  title : Option String
  managerUrn : Option String
  deriving DecidableEq, Repr

/-- `CorpUserSnapshotClass`: the snapshot urn and its single info aspect. -/
structure CorpUserSnapshot where
  urn : String
  info : CorpUserInfo
  deriving DecidableEq, Repr

/-- `LDAPSource.build_corp_user_mce`: resolve the user's ldap identifier,
apply the first/last-name drop check, then read `fullName`, `firstName`
and `lastName` by unguarded dict indexing (uncaught `KeyError` when
absent), fill the optional fields with their documented defaults, and
build the snapshot.  `.ok none` is the dropped user, `.error` an uncaught
Python exception. -/
def build_corp_user_mce (config : UserConfig) (attrs : Attrs)
    (manager_ldap : Option String) :
    Except String (Option CorpUserSnapshot) := do
  let ldap_user ← guess_person_ldap config attrs
  if config.drop_missing_first_last_name &&
      ((lookupAttr attrs config.firstNameAttr).isNone ||
        (lookupAttr attrs config.lastNameAttr).isNone) then
    return none
  let full_name ← dictGet attrs config.fullNameAttr >>= getItem0
  let first_name ← dictGet attrs config.firstNameAttr >>= getItem0
  let last_name ← dictGet attrs config.lastNameAttr >>= getItem0
  let email ←
    match lookupAttr attrs config.emailAttr with
    | some vs => (getItem0 vs).map some
    | none => Except.ok ldap_user
  let display_name ←
    match lookupAttr attrs config.displayNameAttr with
    | some vs => (getItem0 vs).map some
    | none => Except.ok (some full_name)
  let department_id ←
    match lookupAttr attrs config.departmentIdAttr with
    | some vs => do
      let v ← getItem0 vs
      (pyInt v).map some
    | none => Except.ok none
  let department_name ←
    match lookupAttr attrs config.departmentNameAttr with
    | some vs => (getItem0 vs).map some
    | none => Except.ok none
  let country_code ←
    match lookupAttr attrs config.countryCodeAttr with
    | some vs => (getItem0 vs).map some
    | none => Except.ok none
  let title ←
    match lookupAttr attrs config.titleAttr with
    | some vs => (getItem0 vs).map some
    | none => Except.ok none
  let manager_urn : Option String :=
    match manager_ldap with
    | some m => if m != "" then some ("urn:li:corpuser:" ++ m) else none
    | none => none
  return some
    { urn := "urn:li:corpuser:" ++ pyStrOpt ldap_user
      info :=
        { active := true
          email := email
          fullName := full_name
          firstName := first_name
          lastName := last_name
          departmentId := department_id
          departmentName := department_name
          displayName := display_name
          countryCode := country_code
          title := title
          managerUrn := manager_urn } }

end LdapSource

namespace CsvEnricher

/-- Boolean non-membership filtering (as csv_enricher.py writes it, via a
set of present identifiers) agrees with propositional non-membership
filtering (as the spec words it). -/
theorem filter_key_decide {α : Type} (key : α → String) (ids : List String)
    (N : List α) :
    N.filter (fun a => !(ids.contains (key a))) =
      N.filter (fun a => decide (key a ∉ ids)) := by
  apply List.filter_congr
  intro a _
  simp

/-- If some element of `N` carries an unseen identifier, the filtered list
is non-empty. -/
theorem filter_key_pos {α : Type} (key : α → String) (ids : List String)
    (N : List α) (h : ∃ a ∈ N, key a ∉ ids) :
    0 < (N.filter (fun a => !(ids.contains (key a)))).length := by
  obtain ⟨a, haN, ha⟩ := h
  have hmem : a ∈ N.filter (fun a => !(ids.contains (key a))) := by
    rw [List.mem_filter]
    exact ⟨haN, by simpa using ha⟩
  exact List.length_pos.2 (List.ne_nil_of_mem hmem)

/-- Appending the identifier-filtered new elements to a duplicate-free
existing list keeps identifiers duplicate-free, provided the new list is
itself duplicate-free by identifier. -/
theorem append_filter_nodup {α : Type} (key : α → String) (E N : List α)
    (hE : (E.map key).Nodup) (hN : (N.map key).Nodup) :
    ((E ++ N.filter (fun a => !((E.map key).contains (key a)))).map key).Nodup := by
  rw [List.map_append]
  refine List.Nodup.append hE
    (hN.sublist (List.Sublist.map key (List.filter_sublist N))) ?_
  intro x hxE hxF
  obtain ⟨a, haF, rfl⟩ := List.mem_map.1 hxF
  have hpa := List.of_mem_filter haF
  simp only [Bool.not_eq_true'] at hpa
  have hnot : key a ∉ E.map key := by simpa using hpa
  exact hnot hxE

/-- Closed form of the terms reconciler in append mode against existing
state, when something new remains after filtering. -/
theorem terms_append_eq (E : GlossaryTerms) (now : Nat)
    (N : List GlossaryTermAssociation)
    (h : 0 < (N.filter (fun a =>
      !((E.terms.map GlossaryTermAssociation.urn).contains a.urn))).length)
    (hN : N ≠ []) :
    get_resource_glossary_terms_work_unit false (some (some E)) now N =
      some { E with terms := E.terms ++ N.filter (fun a =>
        !((E.terms.map GlossaryTermAssociation.urn).contains a.urn)) } := by
  have h1 : ¬(N.length ≤ 0) := by
    have := List.length_pos.2 hN
    omega
  have h2 : ¬((N.filter (fun a =>
      !((E.terms.map GlossaryTermAssociation.urn).contains a.urn))).length ≤ 0) := by
    omega
  unfold get_resource_glossary_terms_work_unit
  rw [if_neg h1]
  simp only [Bool.false_eq_true, if_false]
  rw [if_neg h2]

/-- Closed form of the tags reconciler in append mode against existing
state, when something new remains after filtering. -/
theorem tags_append_eq (E : GlobalTags) (N : List TagAssociation)
    (h : 0 < (N.filter (fun a =>
      !((E.tags.map TagAssociation.tag).contains a.tag))).length)
    (hN : N ≠ []) :
    get_resource_tags_work_unit false (some (some E)) N =
      some { E with tags := E.tags ++ N.filter (fun a =>
        !((E.tags.map TagAssociation.tag).contains a.tag)) } := by
  have h1 : ¬(N.length ≤ 0) := by
    have := List.length_pos.2 hN
    omega
  have h2 : ¬((N.filter (fun a =>
      !((E.tags.map TagAssociation.tag).contains a.tag))).length ≤ 0) := by
    omega
  unfold get_resource_tags_work_unit
  rw [if_neg h1]
  simp only [Bool.false_eq_true, if_false]
  rw [if_neg h2]

/-- Closed form of the owners reconciler in append mode against existing
state, when something new remains after filtering. -/
theorem owners_append_eq (E : Ownership) (now : Nat) (N : List Owner)
    (h : 0 < (N.filter (fun a =>
      !((E.owners.map Owner.owner).contains a.owner))).length)
    (hN : N ≠ []) :
    get_resource_owners_work_unit false (some (some E)) now N =
      some { E with owners := E.owners ++ N.filter (fun a =>
        !((E.owners.map Owner.owner).contains a.owner)) } := by
  have h1 : ¬(N.length ≤ 0) := by
    have := List.length_pos.2 hN
    omega
  have h2 : ¬((N.filter (fun a =>
      !((E.owners.map Owner.owner).contains a.owner))).length ≤ 0) := by
    omega
  unfold get_resource_owners_work_unit
  rw [if_neg h1]
  simp only [Bool.false_eq_true, if_false]
  rw [if_neg h2]

/-- C1: in append mode (overwrite off, graph present, prior state `E`
fetched, new list carrying at least one unseen identifier), each reconciler
emits an aspect whose association list is exactly `E`'s list followed by the
elements of `N` whose identifier is not among `E`'s identifiers, in their
original relative orders; identically for terms, tags and owners. -/
theorem append_mode_is_additive
    (now wnow : Nat)
    (E : GlossaryTerms) (N : List GlossaryTermAssociation)
    (Et : GlobalTags) (Nt : List TagAssociation)
    (Eo : Ownership) (No : List Owner)
    (hN : ∃ a ∈ N, a.urn ∉ E.terms.map GlossaryTermAssociation.urn)
    (hNt : ∃ a ∈ Nt, a.tag ∉ Et.tags.map TagAssociation.tag)
    (hNo : ∃ a ∈ No, a.owner ∉ Eo.owners.map Owner.owner) :
    (∃ r, get_resource_glossary_terms_work_unit false (some (some E)) now N
        = some r ∧
      r.terms = E.terms ++ N.filter (fun a =>
        decide (a.urn ∉ E.terms.map GlossaryTermAssociation.urn))) ∧
    (∃ r, get_resource_tags_work_unit false (some (some Et)) Nt = some r ∧
      r.tags = Et.tags ++ Nt.filter (fun a =>
        decide (a.tag ∉ Et.tags.map TagAssociation.tag))) ∧
    (∃ r, get_resource_owners_work_unit false (some (some Eo)) wnow No
        = some r ∧
      r.owners = Eo.owners ++ No.filter (fun a =>
        decide (a.owner ∉ Eo.owners.map Owner.owner))) := by
  refine ⟨?_, ?_, ?_⟩
  · have hpos := filter_key_pos GlossaryTermAssociation.urn _ N hN
    obtain ⟨a, haN, _⟩ := hN
    refine ⟨_, terms_append_eq E now N hpos (List.ne_nil_of_mem haN), ?_⟩
    rw [filter_key_decide GlossaryTermAssociation.urn]
  · have hpos := filter_key_pos TagAssociation.tag _ Nt hNt
    obtain ⟨a, haN, _⟩ := hNt
    refine ⟨_, tags_append_eq Et Nt hpos (List.ne_nil_of_mem haN), ?_⟩
    rw [filter_key_decide TagAssociation.tag]
  · have hpos := filter_key_pos Owner.owner _ No hNo
    obtain ⟨a, haN, _⟩ := hNo
    refine ⟨_, owners_append_eq Eo wnow No hpos (List.ne_nil_of_mem haN), ?_⟩
    rw [filter_key_decide Owner.owner]

/-- Witness for C1 at a concrete input: one existing term/tag/owner and one
genuinely new one. -/
theorem append_mode_is_additive_witness :
    ∃ r, get_resource_glossary_terms_work_unit false
        (some (some ⟨[⟨"urn:li:glossaryTerm:a"⟩], 0⟩)) 7
        [⟨"urn:li:glossaryTerm:b"⟩] = some r ∧
      r.terms = [⟨"urn:li:glossaryTerm:a"⟩] ++
        ([⟨"urn:li:glossaryTerm:b"⟩] :
            List GlossaryTermAssociation).filter (fun a =>
          decide (a.urn ∉ ([⟨"urn:li:glossaryTerm:a"⟩] :
            List GlossaryTermAssociation).map GlossaryTermAssociation.urn)) := by
  have h := append_mode_is_additive 7 0
    ⟨[⟨"urn:li:glossaryTerm:a"⟩], 0⟩ [⟨"urn:li:glossaryTerm:b"⟩]
    ⟨[⟨"urn:li:tag:a"⟩]⟩ [⟨"urn:li:tag:b"⟩]
    ⟨[⟨"urn:li:corpuser:a", "NONE"⟩], 0⟩ [⟨"urn:li:corpuser:b", "NONE"⟩]
    (by decide) (by decide) (by decide)
  exact h.1

end CsvEnricher

namespace CsvEnricher

/-- C3 counterexample: in append mode against existing state with term
`a`, the new record set `[b, b]` is appended whole — the filter only
removes identifiers already in the existing state, not duplicates inside
the new set — so `b` occurs twice in the emitted aspect. -/
theorem merged_ids_nodup_cex :
    get_resource_glossary_terms_work_unit false
        (some (some ⟨[⟨"urn:li:glossaryTerm:a"⟩], 0⟩)) 0
        [⟨"urn:li:glossaryTerm:b"⟩, ⟨"urn:li:glossaryTerm:b"⟩] =
      some ⟨[⟨"urn:li:glossaryTerm:a"⟩, ⟨"urn:li:glossaryTerm:b"⟩,
        ⟨"urn:li:glossaryTerm:b"⟩], 0⟩ ∧
    ¬ (([⟨"urn:li:glossaryTerm:a"⟩, ⟨"urn:li:glossaryTerm:b"⟩,
        ⟨"urn:li:glossaryTerm:b"⟩] : List GlossaryTermAssociation).map
          GlossaryTermAssociation.urn).Nodup :=
  ⟨by decide, by decide⟩

/-- C3 (amended): after any entity-level merge (terms, tags or owners, any
mode), the produced aspect's identifiers are pairwise unique provided the
existing state's identifiers and the new record set's identifiers are each
pairwise unique; new associations whose identifier already exists are
dropped, but duplicates inside the new record set itself are not. -/
theorem merged_ids_nodup
    (so : Bool) (now wnow : Nat)
    (g1 : Option (Option GlossaryTerms)) (N : List GlossaryTermAssociation)
    (g2 : Option (Option GlobalTags)) (Nt : List TagAssociation)
    (g3 : Option (Option Ownership)) (No : List Owner)
    (hN : (N.map GlossaryTermAssociation.urn).Nodup)
    (hNt : (Nt.map TagAssociation.tag).Nodup)
    (hNo : (No.map Owner.owner).Nodup)
    (hg1 : ∀ E, g1 = some (some E) →
      (E.terms.map GlossaryTermAssociation.urn).Nodup)
    (hg2 : ∀ E, g2 = some (some E) →
      (E.tags.map TagAssociation.tag).Nodup)
    (hg3 : ∀ E, g3 = some (some E) →
      (E.owners.map Owner.owner).Nodup) :
    (∀ r, get_resource_glossary_terms_work_unit so g1 now N = some r →
      (r.terms.map GlossaryTermAssociation.urn).Nodup) ∧
    (∀ r, get_resource_tags_work_unit so g2 Nt = some r →
      (r.tags.map TagAssociation.tag).Nodup) ∧
    (∀ r, get_resource_owners_work_unit so g3 wnow No = some r →
      (r.owners.map Owner.owner).Nodup) := by
  refine ⟨?_, ?_, ?_⟩
  · intro r hr
    unfold get_resource_glossary_terms_work_unit at hr
    split at hr
    · exact absurd hr (by simp)
    · cases so with
      | true =>
        simp only [if_true] at hr
        obtain rfl : ({ terms := N, auditStamp := now } : GlossaryTerms) = r :=
          by simpa using hr
        exact hN
      | false =>
        simp only [Bool.false_eq_true, if_false] at hr
        rcases g1 with _ | fetched
        · simp at hr
        · dsimp only at hr
          rcases fetched with _ | E
          · obtain rfl : ({ terms := N, auditStamp := now } : GlossaryTerms)
                = r := by simpa using hr
            exact hN
          · dsimp only at hr
            split at hr
            · exact absurd hr (by simp)
            · obtain rfl : ({ E with terms := E.terms ++ N.filter (fun a =>
                  !((E.terms.map GlossaryTermAssociation.urn).contains a.urn)) } :
                    GlossaryTerms) = r := by simpa using hr
              exact append_filter_nodup GlossaryTermAssociation.urn
                E.terms N (hg1 E rfl) hN
  · intro r hr
    unfold get_resource_tags_work_unit at hr
    split at hr
    · exact absurd hr (by simp)
    · cases so with
      | true =>
        simp only [if_true] at hr
        obtain rfl : ({ tags := Nt } : GlobalTags) = r := by simpa using hr
        exact hNt
      | false =>
        simp only [Bool.false_eq_true, if_false] at hr
        rcases g2 with _ | fetched
        · simp at hr
        · dsimp only at hr
          rcases fetched with _ | E
          · obtain rfl : ({ tags := Nt } : GlobalTags) = r := by simpa using hr
            exact hNt
          · dsimp only at hr
            split at hr
            · exact absurd hr (by simp)
            · obtain rfl : ({ E with tags := E.tags ++ Nt.filter (fun a =>
                  !((E.tags.map TagAssociation.tag).contains a.tag)) } :
                    GlobalTags) = r := by simpa using hr
              exact append_filter_nodup TagAssociation.tag
                E.tags Nt (hg2 E rfl) hNt
  · intro r hr
    unfold get_resource_owners_work_unit at hr
    split at hr
    · exact absurd hr (by simp)
    · cases so with
      | true =>
        simp only [if_true] at hr
        obtain rfl : ({ owners := No, lastModified := wnow } : Ownership) = r :=
          by simpa using hr
        exact hNo
      | false =>
        simp only [Bool.false_eq_true, if_false] at hr
        rcases g3 with _ | fetched
        · simp at hr
        · dsimp only at hr
          rcases fetched with _ | E
          · obtain rfl : ({ owners := No, lastModified := wnow } : Ownership)
                = r := by simpa using hr
            exact hNo
          · dsimp only at hr
            split at hr
            · exact absurd hr (by simp)
            · obtain rfl : ({ E with owners := E.owners ++ No.filter (fun a =>
                  !((E.owners.map Owner.owner).contains a.owner)) } :
                    Ownership) = r := by simpa using hr
              exact append_filter_nodup Owner.owner
                E.owners No (hg3 E rfl) hNo

/-- Witness for the amended C3 at a concrete input: duplicate-free existing
and new sets merge to a duplicate-free aspect. -/
theorem merged_ids_nodup_witness :
    get_resource_glossary_terms_work_unit false
        (some (some ⟨[⟨"urn:li:glossaryTerm:a"⟩], 0⟩)) 3
        [⟨"urn:li:glossaryTerm:a"⟩, ⟨"urn:li:glossaryTerm:b"⟩] =
      some ⟨[⟨"urn:li:glossaryTerm:a"⟩, ⟨"urn:li:glossaryTerm:b"⟩], 0⟩ ∧
    (([⟨"urn:li:glossaryTerm:a"⟩, ⟨"urn:li:glossaryTerm:b"⟩] :
        List GlossaryTermAssociation).map GlossaryTermAssociation.urn).Nodup := by
  constructor
  · rfl
  · have h := merged_ids_nodup false 3 0
      (some (some ⟨[⟨"urn:li:glossaryTerm:a"⟩], 0⟩))
      [⟨"urn:li:glossaryTerm:a"⟩, ⟨"urn:li:glossaryTerm:b"⟩]
      (some (some ⟨[⟨"urn:li:tag:a"⟩]⟩)) [⟨"urn:li:tag:b"⟩]
      (some (some ⟨[⟨"urn:li:corpuser:a", "NONE"⟩], 0⟩))
      [⟨"urn:li:corpuser:b", "NONE"⟩]
      (by decide) (by decide) (by decide) ?_ ?_ ?_
    · exact h.1 ⟨[⟨"urn:li:glossaryTerm:a"⟩, ⟨"urn:li:glossaryTerm:b"⟩], 0⟩ rfl
    · intro E hE
      obtain rfl : (⟨[⟨"urn:li:glossaryTerm:a"⟩], 0⟩ : GlossaryTerms) = E := by
        simpa using hE
      decide
    · intro E hE
      obtain rfl : (⟨[⟨"urn:li:tag:a"⟩]⟩ : GlobalTags) = E := by
        simpa using hE
      decide
    · intro E hE
      obtain rfl : (⟨[⟨"urn:li:corpuser:a", "NONE"⟩], 0⟩ : Ownership) = E := by
        simpa using hE
      decide

end CsvEnricher

namespace CsvEnricher

/-- No-work-unit characterization of the terms reconciler. -/
theorem terms_none_iff (so : Bool) (graph : Option (Option GlossaryTerms))
    (now : Nat) (N : List GlossaryTermAssociation) :
    (get_resource_glossary_terms_work_unit so graph now N = none ↔
      (N = [] ∨ (so = false ∧ graph = none) ∨
        (so = false ∧ ∃ E, graph = some (some E) ∧
          N.filter (fun a =>
            decide (a.urn ∉ E.terms.map GlossaryTermAssociation.urn)) = []))) := by
  simp only [← filter_key_decide GlossaryTermAssociation.urn]
  unfold get_resource_glossary_terms_work_unit
  cases so with
  | true =>
    by_cases hN : N = [] <;> simp [hN, Nat.le_zero, List.length_eq_zero]
  | false =>
    cases graph with
    | none => by_cases hN : N = [] <;> simp [hN, Nat.le_zero, List.length_eq_zero]
    | some fetched =>
      cases fetched with
      | none => by_cases hN : N = [] <;> simp [hN, Nat.le_zero, List.length_eq_zero]
      | some E =>
        by_cases hN : N = [] <;>
          by_cases hf : N.filter (fun a =>
            !((E.terms.map GlossaryTermAssociation.urn).contains a.urn)) = [] <;>
          simp [hN, hf, Nat.le_zero, List.length_eq_zero]

/-- No-work-unit characterization of the tags reconciler. -/
theorem tags_none_iff (so : Bool) (graph : Option (Option GlobalTags))
    (N : List TagAssociation) :
    (get_resource_tags_work_unit so graph N = none ↔
      (N = [] ∨ (so = false ∧ graph = none) ∨
        (so = false ∧ ∃ E, graph = some (some E) ∧
          N.filter (fun a =>
            decide (a.tag ∉ E.tags.map TagAssociation.tag)) = []))) := by
  simp only [← filter_key_decide TagAssociation.tag]
  unfold get_resource_tags_work_unit
  cases so with
  | true =>
    by_cases hN : N = [] <;> simp [hN, Nat.le_zero, List.length_eq_zero]
  | false =>
    cases graph with
    | none => by_cases hN : N = [] <;> simp [hN, Nat.le_zero, List.length_eq_zero]
    | some fetched =>
      cases fetched with
      | none => by_cases hN : N = [] <;> simp [hN, Nat.le_zero, List.length_eq_zero]
      | some E =>
        by_cases hN : N = [] <;>
          by_cases hf : N.filter (fun a =>
            !((E.tags.map TagAssociation.tag).contains a.tag)) = [] <;>
          simp [hN, hf, Nat.le_zero, List.length_eq_zero]

/-- No-work-unit characterization of the owners reconciler. -/
theorem owners_none_iff (so : Bool) (graph : Option (Option Ownership))
    (now : Nat) (N : List Owner) :
    (get_resource_owners_work_unit so graph now N = none ↔
      (N = [] ∨ (so = false ∧ graph = none) ∨
        (so = false ∧ ∃ E, graph = some (some E) ∧
          N.filter (fun a =>
            decide (a.owner ∉ E.owners.map Owner.owner)) = []))) := by
  simp only [← filter_key_decide Owner.owner]
  unfold get_resource_owners_work_unit
  cases so with
  | true =>
    by_cases hN : N = [] <;> simp [hN, Nat.le_zero, List.length_eq_zero]
  | false =>
    cases graph with
    | none => by_cases hN : N = [] <;> simp [hN, Nat.le_zero, List.length_eq_zero]
    | some fetched =>
      cases fetched with
      | none => by_cases hN : N = [] <;> simp [hN, Nat.le_zero, List.length_eq_zero]
      | some E =>
        by_cases hN : N = [] <;>
          by_cases hf : N.filter (fun a =>
            !((E.owners.map Owner.owner).contains a.owner)) = [] <;>
          simp [hN, hf, Nat.le_zero, List.length_eq_zero]

/-- C5: each entity-level reconciler returns no work unit exactly when the
new association list is empty, or overwrite mode is off with no graph
connection, or append mode found prior state and the identifier filter left
nothing new (so identifier-subset new sets yield zero work units);
identically for terms, tags and owners.  Returning `none` is silent: the
caller increments its per-kind counter and reports only on a `some`. -/
theorem reconciler_silent_no_op_cases
    (so : Bool) (now wnow : Nat)
    (g1 : Option (Option GlossaryTerms)) (N : List GlossaryTermAssociation)
    (g2 : Option (Option GlobalTags)) (Nt : List TagAssociation)
    (g3 : Option (Option Ownership)) (No : List Owner) :
    (get_resource_glossary_terms_work_unit so g1 now N = none ↔
      (N = [] ∨ (so = false ∧ g1 = none) ∨
        (so = false ∧ ∃ E, g1 = some (some E) ∧
          N.filter (fun a =>
            decide (a.urn ∉ E.terms.map GlossaryTermAssociation.urn)) = []))) ∧
    (get_resource_tags_work_unit so g2 Nt = none ↔
      (Nt = [] ∨ (so = false ∧ g2 = none) ∨
        (so = false ∧ ∃ E, g2 = some (some E) ∧
          Nt.filter (fun a =>
            decide (a.tag ∉ E.tags.map TagAssociation.tag)) = []))) ∧
    (get_resource_owners_work_unit so g3 wnow No = none ↔
      (No = [] ∨ (so = false ∧ g3 = none) ∨
        (so = false ∧ ∃ E, g3 = some (some E) ∧
          No.filter (fun a =>
            decide (a.owner ∉ E.owners.map Owner.owner)) = []))) :=
  ⟨terms_none_iff so g1 now N, tags_none_iff so g2 Nt,
    owners_none_iff so g3 wnow No⟩

end CsvEnricher

namespace CsvEnricher

/-- The entry list produced by the field-info scan: every matching entry is
rewritten by the merge, every other entry is kept, and the scan never stops
early. -/
theorem subResourceLoop_entries (matchP : EditableSchemaFieldInfo → Bool)
    (mergeF : EditableSchemaFieldInfo → EditableSchemaFieldInfo × Bool) :
    ∀ (l : List EditableSchemaFieldInfo) (fm nw : Bool),
      (subResourceLoop matchP mergeF l fm nw).1 =
        l.map (fun fi => if matchP fi then (mergeF fi).1 else fi) := by
  intro l
  induction l with
  | nil => intro fm nw; rfl
  | cons fi rest ih =>
    intro fm nw
    cases hm : matchP fi <;> simp [subResourceLoop, hm, ih]

/-- The final `field_match` flag of the scan is the initial flag joined with
whether any entry matches. -/
theorem subResourceLoop_fieldMatch (matchP : EditableSchemaFieldInfo → Bool)
    (mergeF : EditableSchemaFieldInfo → EditableSchemaFieldInfo × Bool) :
    ∀ (l : List EditableSchemaFieldInfo) (fm nw : Bool),
      (subResourceLoop matchP mergeF l fm nw).2.1 = (fm || l.any matchP) := by
  intro l
  induction l with
  | nil => intro fm nw; simp [subResourceLoop]
  | cons fi rest ih =>
    intro fm nw
    cases hm : matchP fi <;> simp [subResourceLoop, hm, ih]

/-- The scan never clears an already-set dirty flag. -/
theorem subResourceLoop_dirty_mono (matchP : EditableSchemaFieldInfo → Bool)
    (mergeF : EditableSchemaFieldInfo → EditableSchemaFieldInfo × Bool) :
    ∀ (l : List EditableSchemaFieldInfo) (fm : Bool),
      (subResourceLoop matchP mergeF l fm true).2.2 = true := by
  intro l
  induction l with
  | nil => intro fm; rfl
  | cons fi rest ih =>
    intro fm
    cases hm : matchP fi <;> simp [subResourceLoop, hm, ih]

/-- C4: folding a subresource row that carries at least one association
into an entity's editable-schema state merges into every existing
field-info entry whose normalized field path equals the row's field path
(the scan does not stop at the first match), leaves all other entries
unchanged, and appends the brand-new entry (setting the dirty flag) exactly
when no entry at all matches. -/
theorem process_sub_resource_row_merges_all
    (normalize : String → String) (so : Bool) (now : Nat)
    (row : SubResourceRow) (cur : EditableSchemaMetadata) (nw : Bool)
    (h : row.term_associations ≠ [] ∨ row.tag_associations ≠ []) :
    ((process_sub_resource_row normalize so now row cur nw).1.editableSchemaFieldInfo =
      cur.editableSchemaFieldInfo.map (fun fi =>
        if normalize fi.fieldPath == row.field_path
        then (mergeFieldInfo so now row fi).1 else fi) ++
      (if cur.editableSchemaFieldInfo.any
          (fun fi => normalize fi.fieldPath == row.field_path)
        then [] else [fieldInfoToSet now row])) ∧
    (cur.editableSchemaFieldInfo.any
        (fun fi => normalize fi.fieldPath == row.field_path) = false →
      (process_sub_resource_row normalize so now row cur nw).2 = true) := by
  have hguard : (!(decide (row.tag_associations.length > 0)) &&
      !(decide (row.term_associations.length > 0))) = false := by
    rcases h with h | h <;>
      simp [List.length_pos.2 h]
  unfold process_sub_resource_row
  dsimp only
  rw [hguard]
  simp only [Bool.false_eq_true, if_false]
  rw [subResourceLoop_fieldMatch, subResourceLoop_entries]
  cases hany : cur.editableSchemaFieldInfo.any
      (fun fi => normalize fi.fieldPath == row.field_path) with
  | false => simp [fieldInfoToSet]
  | true => simp

end CsvEnricher

namespace CsvEnricher

/-- Witness for C4 at a concrete input: a row carrying one term against a
state holding two entries with the same field path — both get merged and
nothing is appended. -/
theorem process_sub_resource_row_merges_all_witness :
    ((process_sub_resource_row (fun s => s) false 0 ⟨"e", "f", [⟨"t"⟩], []⟩
        ⟨[⟨"f", none, none⟩, ⟨"f", none, none⟩], 0⟩
        false).1.editableSchemaFieldInfo =
      ([⟨"f", none, none⟩, ⟨"f", none, none⟩] :
          List EditableSchemaFieldInfo).map (fun fi =>
        if (fun s => s) fi.fieldPath == "f"
        then (mergeFieldInfo false 0 ⟨"e", "f", [⟨"t"⟩], []⟩ fi).1 else fi) ++
      (if ([⟨"f", none, none⟩, ⟨"f", none, none⟩] :
          List EditableSchemaFieldInfo).any
            (fun fi => (fun s => s) fi.fieldPath == "f")
        then [] else [fieldInfoToSet 0 ⟨"e", "f", [⟨"t"⟩], []⟩])) ∧
    (([⟨"f", none, none⟩, ⟨"f", none, none⟩] :
        List EditableSchemaFieldInfo).any
          (fun fi => (fun s => s) fi.fieldPath == "f") = false →
      (process_sub_resource_row (fun s => s) false 0 ⟨"e", "f", [⟨"t"⟩], []⟩
        ⟨[⟨"f", none, none⟩, ⟨"f", none, none⟩], 0⟩ false).2 = true) :=
  process_sub_resource_row_merges_all (fun s => s) false 0
    ⟨"e", "f", [⟨"t"⟩], []⟩
    ⟨[⟨"f", none, none⟩, ⟨"f", none, none⟩], 0⟩ false
    (Or.inl (by decide))

/-- `process_sub_resource_row` never clears an already-set dirty flag. -/
theorem process_sub_resource_row_keeps_dirty (normalize : String → String)
    (so : Bool) (now : Nat) (row : SubResourceRow)
    (cur : EditableSchemaMetadata) :
    (process_sub_resource_row normalize so now row cur true).2 = true := by
  unfold process_sub_resource_row
  dsimp only
  cases hguard : (!(decide (row.tag_associations.length > 0)) &&
      !(decide (row.term_associations.length > 0))) with
  | true => simp [hguard]
  | false =>
    simp only [hguard, Bool.false_eq_true, if_false]
    have hd := subResourceLoop_dirty_mono
      (fun fi => normalize fi.fieldPath == row.field_path)
      (mergeFieldInfo so now row) cur.editableSchemaFieldInfo false
    cases hsplit : (subResourceLoop
        (fun fi => normalize fi.fieldPath == row.field_path)
        (mergeFieldInfo so now row)
        cur.editableSchemaFieldInfo false true).2.1 <;>
      simp [hsplit, hd]

/-- The per-entity fold of the flush pass never clears a set dirty flag. -/
theorem flush_fold_keeps_dirty (normalize : String → String) (so : Bool)
    (now : Nat) :
    ∀ (rows : List SubResourceRow) (acc : EditableSchemaMetadata × Bool),
      acc.2 = true →
      (rows.foldl (fun acc row =>
        process_sub_resource_row normalize so now row acc.1 acc.2) acc).2 =
        true := by
  intro rows
  induction rows with
  | nil => intro acc h; simpa using h
  | cons row rest ih =>
    intro acc h
    simp only [List.foldl_cons]
    apply ih
    rw [h]
    exact process_sub_resource_row_keeps_dirty normalize so now row acc.1

/-- In overwrite mode the flush of any entity always emits: the starting
state is freshly created and marked dirty, and the fold keeps it dirty. -/
theorem flush_entity_overwrite_isSome (normalize : String → String)
    (graph : Option (String → Option EditableSchemaMetadata)) (now : Nat)
    (urn : String) (rows : List SubResourceRow) :
    (flush_entity normalize true graph now urn rows).isSome = true := by
  unfold flush_entity
  dsimp only
  have h := flush_fold_keeps_dirty normalize true now rows
    ({ editableSchemaFieldInfo := [], created := now }, true) rfl
  simp [h]

/-- The flush pass emits entity keys in a sublist of the accumulated map's
keys. -/
theorem work_units_keys_sublist (normalize : String → String) (so : Bool)
    (graph : Option (String → Option EditableSchemaMetadata)) (now : Nat) :
    ∀ emap, List.Sublist
      ((get_sub_resource_work_units normalize so graph now emap).map Prod.fst)
      (emap.map Prod.fst) := by
  intro emap
  induction emap with
  | nil => simp [get_sub_resource_work_units]
  | cons p rest ih =>
    unfold get_sub_resource_work_units at ih ⊢
    rw [List.filterMap_cons]
    cases hf : flush_entity normalize so graph now p.1 p.2 with
    | none =>
      simp only [Option.map_none, List.map_cons]
      exact ih.cons p.1
    | some esm =>
      simp only [Option.map_some, List.map_cons]
      exact ih.cons₂ p.1

/-- In overwrite mode the flush pass emits exactly the map's keys, in
order. -/
theorem work_units_keys_overwrite (normalize : String → String)
    (graph : Option (String → Option EditableSchemaMetadata)) (now : Nat) :
    ∀ emap,
      (get_sub_resource_work_units normalize true graph now emap).map Prod.fst =
        emap.map Prod.fst := by
  intro emap
  induction emap with
  | nil => rfl
  | cons p rest ih =>
    unfold get_sub_resource_work_units at ih ⊢
    rw [List.filterMap_cons]
    have h := flush_entity_overwrite_isSome normalize graph now p.1 p.2
    cases hf : flush_entity normalize true graph now p.1 p.2 with
    | none => rw [hf] at h; simp at h
    | some esm => simp [ih]

/-- C2 counterexample: append mode with a graph whose prior schema state
already carries the row's term on the matching field.  The entity has one
subresource row carrying a term association, yet the flush pass emits zero
editableSchemaMetadata work units (the dirty flag never sets), refuting
"exactly one work unit is emitted whenever at least one of the entity's
rows carries associations". -/
theorem sub_resource_single_write_cex :
    get_sub_resource_work_units (fun s => s) false
        (some (fun _ => some ⟨[⟨"f", some ⟨[⟨"t"⟩], 0⟩, none⟩], 0⟩)) 0
        [("e", [⟨"e", "f", [⟨"t"⟩], []⟩])] = [] ∧
    (([⟨"e", "f", [⟨"t"⟩], []⟩] : List SubResourceRow).any
      (fun r => !r.term_associations.isEmpty || !r.tag_associations.isEmpty))
      = true :=
  ⟨rfl, rfl⟩

/-- C2 (amended): the flush pass emits at most one editableSchemaMetadata
work unit per entity urn (the accumulated map's keys are unique); and in
overwrite mode every entity of the map — in particular any entity one of
whose rows carries associations — gets exactly one work unit regardless of
its row count.  In append mode an entity can instead get zero work units
when nothing new results (or when no graph connection exists). -/
theorem sub_resource_single_write (normalize : String → String) (so : Bool)
    (graph : Option (String → Option EditableSchemaMetadata)) (now : Nat)
    (emap : List (String × List SubResourceRow)) (urn : String)
    (hnd : (emap.map Prod.fst).Nodup) :
    (((get_sub_resource_work_units normalize so graph now emap).map
      Prod.fst).count urn ≤ 1) ∧
    (so = true → urn ∈ emap.map Prod.fst →
      ((get_sub_resource_work_units normalize so graph now emap).map
        Prod.fst).count urn = 1) := by
  constructor
  · exact le_trans
      ((work_units_keys_sublist normalize so graph now emap).count_le urn)
      (List.nodup_iff_count_le_one.1 hnd urn)
  · intro hso hmem
    subst hso
    rw [work_units_keys_overwrite]
    exact List.count_eq_one_of_mem hnd hmem

/-- Witness for the amended C2 at a concrete input: a two-key map in
overwrite mode. -/
theorem sub_resource_single_write_witness :
    (((get_sub_resource_work_units (fun s => s) true none 0
      [("e1", [⟨"e1", "f", [⟨"t"⟩], []⟩]), ("e2", [])]).map
        Prod.fst).count "e1" ≤ 1) ∧
    (true = true → "e1" ∈ ([("e1", [⟨"e1", "f", [⟨"t"⟩], []⟩]), ("e2", [])] :
        List (String × List SubResourceRow)).map Prod.fst →
      ((get_sub_resource_work_units (fun s => s) true none 0
        [("e1", [⟨"e1", "f", [⟨"t"⟩], []⟩]), ("e2", [])]).map
          Prod.fst).count "e1" = 1) :=
  sub_resource_single_write (fun s => s) true none 0
    [("e1", [⟨"e1", "f", [⟨"t"⟩], []⟩]), ("e2", [])] "e1" (by decide)

end CsvEnricher

namespace LdapSource

/-- One step of the paging loop when the response carries a paged control:
terminate after this page iff the returned cookie is empty, otherwise copy
the cookie into the outgoing control and continue on the remaining
responses. -/
theorem get_workunits_paging_cons (lc : SimplePagedResultsControl)
    (r : PageResponse) (rest : List PageResponse)
    (c : SimplePagedResultsControl) (cs : List SimplePagedResultsControl)
    (hc : get_pctrls r.serverctrls = c :: cs) :
    get_workunits_paging lc (r :: rest) =
      if c.cookie = "" then .done 1
      else (get_workunits_paging { lc with cookie := c.cookie }
        rest).succCalls := by
  conv_lhs => unfold get_workunits_paging
  rw [hc]
  dsimp only [set_cookie]
  by_cases h : c.cookie = ""
  · have hb : (c.cookie != "") = false := by simp [h]
    rw [hb, if_pos h]
    simp only [Bool.false_eq_true, if_false]
  · have hb : (c.cookie != "") = true := by simp [h]
    rw [hb, if_neg h]
    simp only [if_true]

/-- C6: the paged-search loop run against a server returning cursors `c1`,
`c2` and then an empty cursor issues exactly 3 search calls and terminates
(DONE); in general, a page whose returned cursor is empty ends the loop
after exactly that call, and a page with a non-empty cursor copies the
cursor into the outgoing control and recurses on the remaining pages with
one more call on the tally. -/
theorem paging_termination (lc lc2 : SimplePagedResultsControl)
    (e1 e2 e3 : List LdapEntry) (c1 c2 : String)
    (r : PageResponse) (rest : List PageResponse)
    (c : SimplePagedResultsControl) (cs : List SimplePagedResultsControl)
    (h1 : c1 ≠ "") (h2 : c2 ≠ "")
    (hc : get_pctrls r.serverctrls = c :: cs) :
    (get_workunits_paging lc
      [⟨e1, [⟨pagedResultsControlType, c1⟩]⟩,
       ⟨e2, [⟨pagedResultsControlType, c2⟩]⟩,
       ⟨e3, [⟨pagedResultsControlType, ""⟩]⟩] = .done 3) ∧
    (c.cookie = "" → get_workunits_paging lc2 (r :: rest) = .done 1) ∧
    (c.cookie ≠ "" → get_workunits_paging lc2 (r :: rest) =
      (get_workunits_paging { lc2 with cookie := c.cookie } rest).succCalls) := by
  refine ⟨?_, ?_, ?_⟩
  · rw [get_workunits_paging_cons lc _ _ ⟨pagedResultsControlType, c1⟩ []
      (by simp [get_pctrls])]
    rw [if_neg h1]
    rw [get_workunits_paging_cons _ _ _ ⟨pagedResultsControlType, c2⟩ []
      (by simp [get_pctrls])]
    rw [if_neg h2]
    rw [get_workunits_paging_cons _ _ _ ⟨pagedResultsControlType, ""⟩ []
      (by simp [get_pctrls])]
    rfl
  · intro h
    rw [get_workunits_paging_cons lc2 r rest c cs hc, if_pos h]
  · intro h
    rw [get_workunits_paging_cons lc2 r rest c cs hc, if_neg h]

/-- Witness for C6 at a concrete input: cursors `"c1"`, `"c2"`, `""`. -/
theorem paging_termination_witness :
    get_workunits_paging ⟨pagedResultsControlType, ""⟩
      [⟨[], [⟨pagedResultsControlType, "c1"⟩]⟩,
       ⟨[], [⟨pagedResultsControlType, "c2"⟩]⟩,
       ⟨[], [⟨pagedResultsControlType, ""⟩]⟩] = .done 3 :=
  (paging_termination ⟨pagedResultsControlType, ""⟩
    ⟨pagedResultsControlType, ""⟩ [] [] [] "c1" "c2"
    ⟨[], [⟨pagedResultsControlType, "c1"⟩]⟩ []
    ⟨pagedResultsControlType, "c1"⟩ []
    (by decide) (by decide) (by simp [get_pctrls])).1

end LdapSource

namespace LdapSource


/-- `List.contains` agrees with decidable membership on strings. -/
theorem contains_eq_decide_mem (x : String) (l : List String) :
    l.contains x = decide (x ∈ l) := by simp

/-- C7 counterexample: an entry whose objectClass values contain both
`person` and `posixGroup` is routed to user handling — the user check runs
first — not to group handling as the claim's second clause requires. -/
theorem classifier_routes_cex :
    process_ldap_entry (fun d _ => ⟨["user-" ++ d], [], []⟩)
        (fun d _ => ⟨["group-" ++ d], [], []⟩)
        (some "cn=x") [("objectClass", ["person", "posixGroup"])] =
      .ok ⟨["user-cn=x"], [], []⟩ ∧
    ((⟨["user-cn=x"], [], []⟩ : EntryEffects) ≠
      (⟨["group-cn=x"], [], []⟩ : EntryEffects)) :=
  ⟨rfl, by decide⟩

/-- C7 (amended): for a non-empty-attribute entry with objectClass values
`oc`, containing `person`, `posixAccount` or `inetOrgPerson` routes to user
handling; containing `posixGroup`, `organizationalUnit` or `group` while
containing none of the user classes routes to group handling; containing
none of the six drops the entry, recording its dn. -/
theorem classifier_routes (hu hg : String → Attrs → EntryEffects)
    (d : String) (attrs : Attrs) (oc : List String)
    (hne : attrs ≠ []) (hoc : lookupAttr attrs "objectClass" = some oc) :
    (("person" ∈ oc ∨ "posixAccount" ∈ oc ∨ "inetOrgPerson" ∈ oc) →
      process_ldap_entry hu hg (some d) attrs = .ok (hu d attrs)) ∧
    (("posixGroup" ∈ oc ∨ "organizationalUnit" ∈ oc ∨ "group" ∈ oc) →
      ¬("person" ∈ oc ∨ "posixAccount" ∈ oc ∨ "inetOrgPerson" ∈ oc) →
      process_ldap_entry hu hg (some d) attrs = .ok (hg d attrs)) ∧
    (¬("person" ∈ oc ∨ "posixAccount" ∈ oc ∨ "inetOrgPerson" ∈ oc) →
      ¬("posixGroup" ∈ oc ∨ "organizationalUnit" ∈ oc ∨ "group" ∈ oc) →
      process_ldap_entry hu hg (some d) attrs =
        .ok ⟨[], [], [d]⟩) := by
  have hempt : attrs.isEmpty = false := by
    cases attrs with
    | nil => exact absurd rfl hne
    | cons a l => rfl
  refine ⟨?_, ?_, ?_⟩
  · intro h
    have hA : (oc.contains "inetOrgPerson" || oc.contains "posixAccount" ||
        oc.contains "person") = true := by
      simp only [contains_eq_decide_mem, Bool.or_eq_true, decide_eq_true_eq]
      tauto
    unfold process_ldap_entry
    rw [hempt]
    simp only [Bool.false_eq_true, if_false, hoc, hA, if_true]
  · intro h hnu
    have hA : (oc.contains "inetOrgPerson" || oc.contains "posixAccount" ||
        oc.contains "person") = false := by
      simp only [contains_eq_decide_mem, Bool.or_eq_false_iff,
        decide_eq_false_iff_not]
      tauto
    have hB : (oc.contains "posixGroup" || oc.contains "organizationalUnit" ||
        oc.contains "group") = true := by
      simp only [contains_eq_decide_mem, Bool.or_eq_true, decide_eq_true_eq]
      tauto
    unfold process_ldap_entry
    rw [hempt]
    simp only [Bool.false_eq_true, if_false, hoc, hA, hB, if_true]
  · intro hnu hng
    have hA : (oc.contains "inetOrgPerson" || oc.contains "posixAccount" ||
        oc.contains "person") = false := by
      simp only [contains_eq_decide_mem, Bool.or_eq_false_iff,
        decide_eq_false_iff_not]
      tauto
    have hB : (oc.contains "posixGroup" || oc.contains "organizationalUnit" ||
        oc.contains "group") = false := by
      simp only [contains_eq_decide_mem, Bool.or_eq_false_iff,
        decide_eq_false_iff_not]
      tauto
    unfold process_ldap_entry
    rw [hempt]
    simp only [Bool.false_eq_true, if_false, hoc, hA, hB]

/-- Witness for the amended C7 at a concrete input: a pure `posixGroup`
entry routes to the group handler. -/
theorem classifier_routes_witness :
    (("person" ∈ ["posixGroup"] ∨ "posixAccount" ∈ ["posixGroup"] ∨
        "inetOrgPerson" ∈ ["posixGroup"]) →
      process_ldap_entry (fun d _ => ⟨["user-" ++ d], [], []⟩)
        (fun d _ => ⟨["group-" ++ d], [], []⟩) (some "cn=g")
        [("objectClass", ["posixGroup"])] =
        .ok ((fun d _ => (⟨["user-" ++ d], [], []⟩ : EntryEffects)) "cn=g"
          [("objectClass", ["posixGroup"])])) ∧
    (("posixGroup" ∈ ["posixGroup"] ∨ "organizationalUnit" ∈ ["posixGroup"] ∨
        "group" ∈ ["posixGroup"]) →
      ¬("person" ∈ ["posixGroup"] ∨ "posixAccount" ∈ ["posixGroup"] ∨
        "inetOrgPerson" ∈ ["posixGroup"]) →
      process_ldap_entry (fun d _ => ⟨["user-" ++ d], [], []⟩)
        (fun d _ => ⟨["group-" ++ d], [], []⟩) (some "cn=g")
        [("objectClass", ["posixGroup"])] =
        .ok ((fun d _ => (⟨["group-" ++ d], [], []⟩ : EntryEffects)) "cn=g"
          [("objectClass", ["posixGroup"])])) ∧
    (¬("person" ∈ ["posixGroup"] ∨ "posixAccount" ∈ ["posixGroup"] ∨
        "inetOrgPerson" ∈ ["posixGroup"]) →
      ¬("posixGroup" ∈ ["posixGroup"] ∨ "organizationalUnit" ∈ ["posixGroup"] ∨
        "group" ∈ ["posixGroup"]) →
      process_ldap_entry (fun d _ => ⟨["user-" ++ d], [], []⟩)
        (fun d _ => ⟨["group-" ++ d], [], []⟩) (some "cn=g")
        [("objectClass", ["posixGroup"])] = .ok ⟨[], [], ["cn=g"]⟩) :=
  classifier_routes (fun d _ => ⟨["user-" ++ d], [], []⟩)
    (fun d _ => ⟨["group-" ++ d], [], []⟩) "cn=g"
    [("objectClass", ["posixGroup"])] ["posixGroup"]
    (by decide) rfl

/-- C9 counterexample: an entry with an empty attribute map is skipped with
only a warning — its dn is not appended to the report's dropped list, in
contrast with the claim's "recorded in the dropped-entities list". -/
theorem empty_attrs_dropped_cex :
    process_ldap_entry (fun d _ => ⟨["u"], [], []⟩)
        (fun d _ => ⟨["g"], [], []⟩) (some "cn=empty,dc=example") [] =
      .ok ⟨[], [emptyAttrsWarning "cn=empty,dc=example"], []⟩ ∧
    ("cn=empty,dc=example" ∉
      (⟨[], [emptyAttrsWarning "cn=empty,dc=example"], []⟩ :
        EntryEffects).dropped) :=
  ⟨rfl, by decide⟩

/-- C9 (amended): an entry with an empty attribute map is dropped before
classification runs, independent of the handlers: no work unit is produced,
exactly one warning naming the dn is reported, processing continues (no
exception), and the dn is not added to the dropped-entities list (only
classification misses and failed entity builds are). -/
theorem empty_attrs_skip (hu hg : String → Attrs → EntryEffects)
    (d : String) :
    process_ldap_entry hu hg (some d) [] =
      .ok ⟨[], [emptyAttrsWarning d], []⟩ ∧
    (⟨[], [emptyAttrsWarning d], []⟩ : EntryEffects).dropped = [] :=
  ⟨rfl, rfl⟩

/-- C8: what distinguished-name reduction actually computes.  The spec's
example input reduces to `alice` as claimed, but the implementation's
`lstrip("uid=")` strips the character set of `"uid="`, not the literal
four-character string: on `uid=david,...` it also eats the leading `d` of
the username, producing `avid` where the documented behavior ("converts
b'uid=username,...' to username") requires `david`. -/
theorem strip_ldap_info_lstrip_behavior :
    strip_ldap_info "uid=alice,ou=People,dc=example,dc=com" = "alice" ∧
    strip_ldap_info "uid=david,ou=People,dc=example,dc=com" = "avid" ∧
    ("avid" : String) ≠ "david" :=
  ⟨by decide, by decide, by decide⟩

end LdapSource

namespace LdapSource

/-- C10: when the drop check passes (both configured first/last-name
attributes present, or the drop flag off) but the configured fullName
attribute is absent, `build_corp_user_mce` raises an uncaught `KeyError`
on the fullName lookup — it neither returns an entity nor drops the user —
provided identifier resolution itself returned (it runs first). -/
theorem missing_full_name_keyerror (config : UserConfig) (attrs : Attrs)
    (manager_ldap : Option String) (u : Option String)
    (hguess : guess_person_ldap config attrs = .ok u)
    (hdrop : config.drop_missing_first_last_name = false ∨
      (lookupAttr attrs config.firstNameAttr ≠ none ∧
        lookupAttr attrs config.lastNameAttr ≠ none))
    (hfull : lookupAttr attrs config.fullNameAttr = none) :
    build_corp_user_mce config attrs manager_ldap =
      .error ("KeyError: " ++ config.fullNameAttr) := by
  have hcond : (config.drop_missing_first_last_name &&
      ((lookupAttr attrs config.firstNameAttr).isNone ||
        (lookupAttr attrs config.lastNameAttr).isNone)) = false := by
    rcases hdrop with h | ⟨h1, h2⟩
    · simp [h]
    · obtain ⟨a1, ha1⟩ := Option.ne_none_iff_exists'.mp h1
      obtain ⟨a2, ha2⟩ := Option.ne_none_iff_exists'.mp h2
      rw [ha1, ha2]
      simp
  unfold build_corp_user_mce
  rw [hguess]
  dsimp only [Bind.bind, Except.bind]
  rw [hcond]
  simp only [Bool.false_eq_true, if_false]
  unfold dictGet
  rw [hfull]
  rfl

/-- Witness for C10 at a concrete input: default attribute mapping, first
and last name present, `cn` (fullName) absent. -/
theorem missing_full_name_keyerror_witness :
    build_corp_user_mce defaultUserConfig
        [("givenName", ["Ada"]), ("sn", ["L"]), ("sAMAccountName", ["ada"])]
        none =
      .error ("KeyError: " ++ defaultUserConfig.fullNameAttr) :=
  missing_full_name_keyerror defaultUserConfig
    [("givenName", ["Ada"]), ("sn", ["L"]), ("sAMAccountName", ["ada"])]
    none (some "ada") rfl (Or.inr ⟨by decide, by decide⟩) rfl

end LdapSource
